import Mathlib

/-!
Shallow embedding of the per-user outbound message queue of the
whatsmeow-webhook-dashboard server (Go), together with theorems checking the
specification's claims against it.

Conventions of the embedding:
* Go `time.Time` / `time.Duration` values are modelled as `Int` nanoseconds
  (`time.Time` zero value is `0`; `t.After(u)` is strict `t > u`).
* Go strings are modelled as `String`; where the Go code operates on the
  UTF-8 byte representation (indexing, `len`, `strings.Contains`) the byte
  sequence is recovered with `utf8Bytes`, and where it ranges over runes
  (`for _, r := range s`) the `Char` list `String.data` is used directly.
* The per-queue mutex is not data and is omitted.  Three execution models
  of increasing granularity are used: `runDrain`/`runTrace` treat one whole
  drain-loop iteration as a step (a sequential view, adequate for
  per-iteration and order properties); `FineState`/`fineStep` separate the
  pop from the later re-insertion critical section, admitting the enqueues
  the Go code allows in between (capacity analysis); and
  `ConcState`/`concStep` model the loop-top break and the deferred
  flag-clear as separate critical sections (draining-flag analysis).  In
  the two fine models every step is (a merge of effects of) one
  lock-protected critical section, so every modelled schedule is a real
  interleaving.
* The transport call (`whatsmeow` client send) is an external capability and
  enters the model as a parameter `transport : Option String`: `some id` for
  a successful send returning transport message id `id`, `none` for any of
  the failure paths of `MessageQueue.sendMessage` (nil client, bad JID,
  transport error), all of which return `false` without firing a callback.
* Floating point ratio comparisons `float64(a)/float64(b) > 0.7` (and `0.3`)
  are modelled exactly over the integers as `10*a > 7*b` (resp. `10*a > 3*b`);
  the two agree at every count pair reachable from real message sizes.
-/

/-! ## Anti-detection constants (source: part_003 lines 38-46) -/

def MESSAGE_DELAY : Int := 1000000000

def BURST_ALLOWANCE : Nat := 5

def BURST_COOLDOWN : Int := 3000000000

def MAX_QUEUE_PER_USER : Nat := 50

def MAX_RETRIES : Nat := 3

def MAX_HOURLY_MESSAGES : Nat := 200

def MAX_DAILY_MESSAGES : Nat := 1000

/-- Nanoseconds in `time.Hour`. -/
def NANOS_PER_HOUR : Int := 3600000000000

/-- Nanoseconds in 24 hours. -/
def NANOS_PER_DAY : Int := 86400000000000

/-- Nanoseconds in `time.Minute` (the rate-limit deferral backoff). -/
def NANOS_PER_MINUTE : Int := 60000000000

/-! ## Data model (source: part_003 lines 49-71) -/

/-- Go struct QueuedMessage.  `createdAt` is nanoseconds; `retries` is the
`Retries` counter; `status` ranges over the strings used by the code. -/
structure QueuedMessage where
  id : String
  userEmail : String
  chatJID : String
  message : String
  callbackURL : String
  createdAt : Int
  retries : Nat
  status : String
deriving DecidableEq

/-- Go struct MessageQueue (the per-user queue).  The `sync.RWMutex` field
is omitted: it is synchronisation, not data. -/
structure MessageQueue where
  userEmail : String
  messages : List QueuedMessage
  lastSent : Int
  burstCount : Nat
  hourlyCount : Nat
  dailyCount : Nat
  hourlyReset : Int
  dailyReset : Int
  isProcessing : Bool
deriving DecidableEq

/-! ## Rate window check (source: `MessageQueue.canSendMessage`, lines 178-205) -/

/-- Go function canSendMessage (method of MessageQueue).  Takes the current time `now`
explicitly; returns the admission verdict together with the (possibly
rolled-over) queue state, since the Go code mutates the counters and reset
markers in place. -/
def canSendMessage (now : Int) (q : MessageQueue) : Bool × MessageQueue :=
  let q1 := if now > q.hourlyReset then
    { q with hourlyCount := 0, hourlyReset := now + NANOS_PER_HOUR } else q
  let q2 := if now > q1.dailyReset then
    { q1 with dailyCount := 0, dailyReset := now + NANOS_PER_DAY } else q1
  if q2.dailyCount ≥ MAX_DAILY_MESSAGES then (false, q2)
  else if q2.hourlyCount ≥ MAX_HOURLY_MESSAGES then (false, q2)
  else (true, q2)

/-! ## Enqueue (source: `MessageQueue.addMessage`, lines 207-224) -/

/-- Go function addMessage (method of MessageQueue).  On success the returned `Bool` records
whether a drain worker was spawned (`IsProcessing` observed `false`). -/
def addMessage (msg : QueuedMessage) (q : MessageQueue) :
    Except String (MessageQueue × Bool) :=
  if q.messages.length ≥ MAX_QUEUE_PER_USER then
    Except.error ("queue full (max 50 messages)")
  else
    let q1 := { q with messages := q.messages ++ [msg] }
    if !q1.isProcessing then Except.ok ({ q1 with isProcessing := true }, true)
    else Except.ok (q1, false)

/-! ## Delay estimation (source: `MessageQueue.estimateDelay`, lines 238-252) -/

/-- Go function estimateDelay (method of MessageQueue) (result in nanoseconds).  The division is
only reached with `position - 1 ≥ 0`, where Go's truncating division and
Lean's `Int` division agree. -/
def estimateDelay (position : Int) : Int :=
  if position ≤ 0 then 0
  else
    let baseDelay := (position - 1) * MESSAGE_DELAY
    let burstCycles := (position - 1) / (BURST_ALLOWANCE : Int)
    if burstCycles > 0 then baseDelay + burstCycles * BURST_COOLDOWN
    else baseDelay

/-! ## Delivery callback (source: `sendCallback`, lines 367-398) -/

/-- An HTTP POST fired by `sendCallback`, as observable data. -/
structure Callback where
  url : String
  queueId : String
  status : String
  transportId : Option String
deriving DecidableEq

/-- Go function sendCallback: fire-and-forget notification; no-op when the URL is
empty.  Modelled as the list of POSTs it issues. -/
def sendCallback (callbackURL queueID status : String)
    (messageID : Option String) : List Callback :=
  if callbackURL = "" then [] else [⟨callbackURL, queueID, status, messageID⟩]

/-! ## Spam classifier (source: `isSpamPattern`, lines 285-365) -/

/-- UTF-8 encoding of one rune, as byte values (Go string indexing sees
these bytes). -/
def utf8EncodeChar (c : Char) : List Nat :=
  let n := c.toNat
  if n < 128 then [n]
  else if n < 2048 then [192 + n / 64, 128 + n % 64]
  else if n < 65536 then [224 + n / 4096, 128 + (n / 64) % 64, 128 + n % 64]
  else [240 + n / 262144, 128 + (n / 4096) % 64, 128 + (n / 64) % 64, 128 + n % 64]

/-- UTF-8 byte sequence of a rune list (the Go string's bytes). -/
def utf8Bytes : List Char → List Nat
  | [] => []
  | c :: cs => utf8EncodeChar c ++ utf8Bytes cs

/-- Byte-sequence prefix test (helper for `strings.Contains`). -/
def bytesPrefix : List Nat → List Nat → Bool
  | [], _ => true
  | _ :: _, [] => false
  | a :: as, b :: bs => a == b && bytesPrefix as bs

/-- Go strings.Contains applied to byte sequences. -/
def bytesContains : List Nat → List Nat → Bool
  | [], sub => sub.isEmpty
  | a :: rest, sub => bytesPrefix sub (a :: rest) || bytesContains rest sub

/-- The fixed denylist of `isSpamPattern` (24 entries, copied verbatim). -/
def spamKeywords : List String :=
  ["buy now", "limited time", "click here", "free money", "earn money",
   "get rich", "make money fast", "investment opportunity", "guaranteed profit",
   "call now", "act now", "offer expires", "special deal", "discount",
   "promotion", "sale", "bitcoin", "crypto investment", "trading bot",
   "mlm", "pyramid", "referral bonus", "commission", "affiliate"]

/-- Rune predicate of the capitalisation rule: ASCII letter. -/
def isAsciiLetter (c : Char) : Bool :=
  (decide (65 ≤ c.toNat) && decide (c.toNat ≤ 90)) ||
  (decide (97 ≤ c.toNat) && decide (c.toNat ≤ 122))

/-- Rune predicate of the capitalisation rule: ASCII uppercase letter. -/
def isAsciiUpper (c : Char) : Bool :=
  decide (65 ≤ c.toNat) && decide (c.toNat ≤ 90)

/-- The letterCount of the capitalisation rule. -/
def letterCount (s : List Char) : Nat := s.countP isAsciiLetter

/-- The capsCount of the capitalisation rule. -/
def capsCount (s : List Char) : Nat := s.countP isAsciiUpper

/-- Rune predicate of the emoji rule (the five Unicode ranges checked). -/
def isEmojiRune (c : Char) : Bool :=
  let n := c.toNat
  (decide (128512 ≤ n) && decide (n ≤ 128591)) ||
  (decide (127744 ≤ n) && decide (n ≤ 128511)) ||
  (decide (128640 ≤ n) && decide (n ≤ 128767)) ||
  (decide (9728 ≤ n) && decide (n ≤ 9983)) ||
  (decide (9984 ≤ n) && decide (n ≤ 10175))

/-- Length of the run of byte `c` at the front of the list, looking at most
`fuel` bytes ahead (the Go loop bounds `j < i+10`). -/
def runLength (c : Nat) : List Nat → Nat → Nat
  | _, 0 => 0
  | [], _ + 1 => 0
  | b :: bs, k + 1 => if b == c then 1 + runLength c bs k else 0

/-- Character-run-repetition rule over the byte sequence: some position
`i ≤ len - 5` starts a run of a non-space byte of length ≥ 5 (within a
10-byte lookahead window). -/
def hasCharRun (bytes : List Nat) : Bool :=
  (List.range (bytes.length - 4)).any fun i =>
    match bytes.drop i with
    | [] => false
    | c :: rest => !(c == 32) && decide (1 + runLength c rest 9 ≥ 5)

/-- Go function isSpamPattern.  The four rules are evaluated in source order; each
returns `true` immediately on match, which for a pure function is the
disjunction below.  `userEmail` only feeds log lines in the source.
`Char.toLower` matches Go `strings.ToLower` on ASCII (all denylist entries
are ASCII). -/
def isSpamPattern (message : String) (userEmail : String) : Bool :=
  let chars := message.data
  let bytes := utf8Bytes chars
  let lowerBytes := utf8Bytes (chars.map Char.toLower)
  (spamKeywords.any fun k => bytesContains lowerBytes (utf8Bytes k.data)) ||
  (decide (bytes.length > 10) && decide (letterCount chars > 0) &&
    decide (10 * capsCount chars > 7 * letterCount chars)) ||
  (decide (bytes.length > 5) && hasCharRun bytes) ||
  (decide (chars.length > 0) && decide (10 * chars.countP isEmojiRune > 3 * chars.length))

/-! ## One drain-loop iteration (source: `MessageQueue.processQueue`,
lines 402-492, and `MessageQueue.sendMessage`, lines 494-529) -/

/-- Observable outcome of one iteration of the `processQueue` loop. -/
inductive IterResult where
  | emptyExit : IterResult
  | deferred : Int → IterResult
  | sent : QueuedMessage → List Callback → IterResult
  | retried : QueuedMessage → IterResult
  | failedPerm : QueuedMessage → List Callback → IterResult
deriving DecidableEq

/-- One iteration of the `processQueue` loop.  `now` is the time of the
rate-window check, `now2` the time recorded in `LastSent` after a successful
send, `transport` the outcome of the transport call (see file header).

Fidelity notes, keyed to the source: an empty pending list breaks the loop
and (via the deferred handler) clears `IsProcessing`; a denied rate check
re-inserts the popped message at the head and reports the fixed
one-minute backoff; `BurstCount` is zeroed whenever it has reached
`BURST_ALLOWANCE` (both cooldown subbranches do so); on success the "sent"
callback is fired by `sendMessage` with the transport message id and the
counters and `LastSent` are updated; on failure `Retries` is incremented,
then re-queued at the tail as "retrying" while `Retries < MAX_RETRIES`,
otherwise marked "failed" with the failure callback (nil message id).
The pacing sleeps change no state and are not recorded. -/
def processQueueStep (q : MessageQueue) (now now2 : Int)
    (transport : Option String) : MessageQueue × IterResult :=
  match q.messages with
  | [] => ({ q with isProcessing := false }, IterResult.emptyExit)
  | msg :: rest =>
    let q1 := { q with messages := rest }
    let c := canSendMessage now q1
    if c.1 = false then
      ({ c.2 with messages := msg :: c.2.messages },
       IterResult.deferred NANOS_PER_MINUTE)
    else
      let q3 := if c.2.burstCount ≥ BURST_ALLOWANCE then
        { c.2 with burstCount := 0 } else c.2
      match transport with
      | some tid =>
        ({ q3 with lastSent := now2, burstCount := q3.burstCount + 1,
                   hourlyCount := q3.hourlyCount + 1,
                   dailyCount := q3.dailyCount + 1 },
         IterResult.sent { msg with status := ("sent") }
           (sendCallback msg.callbackURL msg.id ("sent") (some tid)))
      | none =>
        let m1 := { msg with retries := msg.retries + 1 }
        if m1.retries < MAX_RETRIES then
          ({ q3 with messages := q3.messages ++ [{ m1 with status := ("retrying") }] },
           IterResult.retried { m1 with status := ("retrying") })
        else
          (q3,
           IterResult.failedPerm { m1 with status := ("failed") }
             (sendCallback msg.callbackURL msg.id ("failed") none))

/-- Callbacks fired by an iteration outcome. -/
def callbacksOf : IterResult → List Callback
  | IterResult.sent _ cbs => cbs
  | IterResult.failedPerm _ cbs => cbs
  | _ => []

/-- The popped message's final version carried by an iteration outcome. -/
def resultMessages : IterResult → List QueuedMessage
  | IterResult.sent m _ => [m]
  | IterResult.retried m => [m]
  | IterResult.failedPerm m _ => [m]
  | _ => []

/-- True exactly for the two transport-failure outcomes. -/
def isRetryOrFail : IterResult → Bool
  | IterResult.retried _ => true
  | IterResult.failedPerm _ _ => true
  | _ => false

/-- Iterate the drain loop, one `transport` outcome per iteration, with the
clock held at 0 (pacing is stateless in the model).  Returns the final queue
and the chronological list of iteration outcomes. -/
def runDrain (q : MessageQueue) : List (Option String) → MessageQueue × List IterResult
  | [] => (q, [])
  | t :: ts =>
    let p := processQueueStep q 0 0 t
    let o := runDrain p.1 ts
    (o.1, p.2 :: o.2)

/-! ## Queue registry (source: `getOrCreateQueue`, lines 159-176, and the
`/api/messages/send` handler, lines 1494-1598) -/

/-- The process-wide `messageQueues` map. -/
abbrev Registry := String → Option MessageQueue

/-- Go function getOrCreateQueue at current time `now`: lazily creates the
per-user queue with reset markers one window ahead of now and Go zero
values elsewhere. -/
def getOrCreateQueue (now : Int) (userEmail : String) (reg : Registry) :
    MessageQueue × Registry :=
  match reg userEmail with
  | some q => (q, reg)
  | none =>
    let q : MessageQueue :=
      { userEmail := userEmail, messages := [], lastSent := 0, burstCount := 0,
        hourlyCount := 0, dailyCount := 0, hourlyReset := now + NANOS_PER_HOUR,
        dailyReset := now + NANOS_PER_DAY, isProcessing := false }
    (q, fun e => if e = userEmail then some q else reg e)

/-- The queue-level effect of the `/api/messages/send` handler once a message
is admitted: get-or-create the owner's queue, `addMessage`, and write the
mutated queue back (Go mutates it in place through the map's pointer). -/
def enqueueForUser (now : Int) (userEmail : String) (msg : QueuedMessage)
    (reg : Registry) : Registry × Except String (MessageQueue × Bool) :=
  let p := getOrCreateQueue now userEmail reg
  match addMessage msg p.1 with
  | Except.error e => (p.2, Except.error e)
  | Except.ok (q1, sp) =>
    ((fun e2 => if e2 = userEmail then some q1 else p.2 e2), Except.ok (q1, sp))

/-- Queue state right after the first accepted enqueue for a fresh owner at
time 0 (see `enqueueForUser_fresh` below, which derives it from
`getOrCreateQueue` and `addMessage`). -/
def initialQueue (userEmail : String) (m : QueuedMessage) : MessageQueue :=
  { userEmail := userEmail, messages := [m], lastSent := 0, burstCount := 0,
    hourlyCount := 0, dailyCount := 0, hourlyReset := NANOS_PER_HOUR,
    dailyReset := NANOS_PER_DAY, isProcessing := true }

/-! ## Interleaved enqueue/drain traces (sequential view) -/

/-- An event acting on one owner's queue: an enqueue (one `addMessage`
critical section) or one full drain-loop iteration.  NOTE: a `drain` event
is a whole loop iteration taken atomically; the Go code releases the lock
between the pop and a later re-insertion, and `FineStep` below models that
window.  This coarser trace is the sequential view used for the
order-of-dispatch analysis. -/
inductive TraceEv where
  | enq : QueuedMessage → TraceEv
  | drain : Int → Int → Option String → TraceEv

/-- Result of running a trace. -/
structure RunOut where
  queue : MessageQueue
  dispatched : List QueuedMessage
  accepted : List QueuedMessage
  results : List IterResult

/-- Run a trace of enqueues and drain iterations.  `dispatched` lists the
successfully sent messages in dispatch order, `accepted` the enqueues that
`addMessage` accepted in arrival order, `results` all iteration outcomes,
each list chronological. -/
def runTrace (q : MessageQueue) : List TraceEv → RunOut
  | [] => ⟨q, [], [], []⟩
  | TraceEv.enq m :: evs =>
    (match addMessage m q with
     | Except.error _ => runTrace q evs
     | Except.ok (q1, _) =>
       let o := runTrace q1 evs
       ⟨o.queue, o.dispatched, m :: o.accepted, o.results⟩)
  | TraceEv.drain now now2 t :: evs =>
    let p := processQueueStep q now now2 t
    let o := runTrace p.1 evs
    ⟨o.queue,
     (match p.2 with
      | IterResult.sent m _ => m :: o.dispatched
      | _ => o.dispatched),
     o.accepted, p.2 :: o.results⟩

/-! ## Single-message status endpoint (source: the `/api/queue/message/`
handler, lines 1297-1321) -/

/-- Scan of `queue.Messages` performed by the handler, carrying the 1-based
position. -/
def findMessageAux : List QueuedMessage → String → Nat → Option (String × Nat × Nat)
  | [], _, _ => none
  | m :: ms, mid, i =>
    if m.id = mid then some (m.status, m.retries, i) else findMessageAux ms mid (i + 1)

/-- The `/api/queue/message/{id}` handler's lookup: the pending list is
scanned for the id; a hit yields `(status, retries, position)`, a miss is
the 404 "Message not found in queue". -/
def findMessage (q : MessageQueue) (mid : String) : Option (String × Nat × Nat) :=
  findMessageAux q.messages mid 1

/-! ## Fine-grained concurrency model for the draining flag
(source: `addMessage` lines 217-221, `processQueue` lines 402-414)

Each step below is one lock-protected critical section of the Go code:
`addMessage` is atomic; the loop-top length check that breaks out of the
loop is atomic (the deferred `IsProcessing = false` write has NOT yet run
when it executes); the deferred write is its own later critical section.
A non-empty loop iteration is taken as one atomic step, which only removes
interleavings, so every trace of this model is a real schedule. -/

/-- Control state of the (at most one) drain goroutine. -/
inductive WorkerPhase where
  | notRunning : WorkerPhase
  | atLoopTop : WorkerPhase
  | exiting : WorkerPhase
deriving DecidableEq

/-- Queue data plus drain-goroutine control state. -/
structure ConcState where
  queue : MessageQueue
  worker : WorkerPhase
deriving DecidableEq

/-- Scheduler choices: an enqueue by an HTTP handler, the worker executing
its loop-top check (popping and handling one message if any, else breaking
out), or the worker's deferred flag-clear running. -/
inductive ConcStep where
  | enq : QueuedMessage → ConcStep
  | loopCheck : Int → Int → Option String → ConcStep
  | exitStep : ConcStep

/-- One scheduled step; `none` if the chosen step is not enabled. -/
def concStep (s : ConcState) : ConcStep → Option ConcState
  | ConcStep.enq m =>
    (match addMessage m s.queue with
     | Except.error _ => some s
     | Except.ok (q1, spawned) =>
       some { queue := q1,
              worker := if spawned then WorkerPhase.atLoopTop else s.worker })
  | ConcStep.loopCheck now now2 t =>
    if s.worker = WorkerPhase.atLoopTop then
      (match s.queue.messages with
       | [] => some { s with worker := WorkerPhase.exiting }
       | _ :: _ =>
         some { queue := (processQueueStep s.queue now now2 t).1,
                worker := WorkerPhase.atLoopTop })
    else none
  | ConcStep.exitStep =>
    if s.worker = WorkerPhase.exiting then
      some { queue := { s.queue with isProcessing := false },
             worker := WorkerPhase.notRunning }
    else none

/-- Run a schedule of interleaved steps. -/
def runSchedule (s : ConcState) : List ConcStep → Option ConcState
  | [] => some s
  | st :: rest =>
    match concStep s st with
    | none => none
    | some s1 => runSchedule s1 rest

/-! ## Fine-grained drain-loop model for the capacity analysis
(source: `addMessage` lines 207-224, `processQueue` lines 409-487)

The drain loop releases `q.mu` between the pop (line 419) and the later
re-insertion of the popped message — the deferral prepend (lines 424-426)
and the retry-to-tail append (line 478) each run in their own critical
section, after the rate check and, for the retry, after the multi-second
`sendMessage` sleeps.  Enqueues by HTTP handlers can therefore run while
the popped message is held outside the list, and neither re-insert path
performs a capacity check.  The model below separates exactly that window:
`hold` is the popped message not yet re-inserted or retired.  The rate
check, burst bookkeeping and post-send section are merged into the
`rateDefer`/`sendDone` steps; none of the merged sections touches
`messages` and enqueues change no field they read, so the merge loses no
reachable pending-list state. -/

/-- Queue data plus the drain worker's popped-but-not-yet-re-inserted
message (`none` when the worker holds nothing). -/
structure FineState where
  queue : MessageQueue
  hold : Option QueuedMessage
deriving DecidableEq

/-- Scheduler choices for the fine model: an enqueue critical section, the
pop critical section (lines 410-419), the denied-rate-check deferral with
its prepend (lines 422-427), or the admitted-rate-check path through the
transport call to the post-send critical section (lines 432-487). -/
inductive FineStep where
  | enq : QueuedMessage → FineStep
  | pop : FineStep
  | rateDefer : Int → FineStep
  | sendDone : Int → Int → Option String → FineStep

/-- One scheduled fine-grained step; `none` if not enabled. -/
def fineStep (s : FineState) : FineStep → Option FineState
  | FineStep.enq m =>
    (match addMessage m s.queue with
     | Except.error _ => some s
     | Except.ok (q1, _) => some { s with queue := q1 })
  | FineStep.pop =>
    (match s.hold, s.queue.messages with
     | none, msg :: rest =>
       some { queue := { s.queue with messages := rest }, hold := some msg }
     | _, _ => none)
  | FineStep.rateDefer now =>
    (match s.hold with
     | some msg =>
       let c := canSendMessage now s.queue
       if c.1 = false then
         some { queue := { c.2 with messages := msg :: c.2.messages }, hold := none }
       else none
     | none => none)
  | FineStep.sendDone now now2 transport =>
    (match s.hold with
     | some msg =>
       let c := canSendMessage now s.queue
       if c.1 = true then
         let q3 := if c.2.burstCount ≥ BURST_ALLOWANCE then
           { c.2 with burstCount := 0 } else c.2
         (match transport with
          | some _ =>
            let q4 := { q3 with lastSent := now2, burstCount := q3.burstCount + 1,
                                hourlyCount := q3.hourlyCount + 1,
                                dailyCount := q3.dailyCount + 1 }
            some { queue := q4, hold := none }
          | none =>
            let m1 := { msg with retries := msg.retries + 1 }
            if m1.retries < MAX_RETRIES then
              let q4 := { q3 with messages :=
                            q3.messages ++ [{ m1 with status := ("retrying") }] }
              some { queue := q4, hold := none }
            else some { queue := q3, hold := none })
       else none
     | none => none)

/-- Run a schedule of fine-grained steps. -/
def runFine (s : FineState) : List FineStep → Option FineState
  | [] => some s
  | st :: rest =>
    (match fineStep s st with
     | none => none
     | some s1 => runFine s1 rest)

/-- The invariant the fine model actually maintains: at most 50 pending
messages while the worker holds a popped message, at most 51 otherwise
(the uncapped re-insertion of the held message can exceed the enqueue
capacity by exactly one). -/
def fineInv (s : FineState) : Bool :=
  match s.hold with
  | none => decide (s.queue.messages.length ≤ MAX_QUEUE_PER_USER + 1)
  | some _ => decide (s.queue.messages.length ≤ MAX_QUEUE_PER_USER)

/-! ## Concrete inputs used by witnesses and counterexamples -/

/-- A concrete queued message with a callback URL. -/
def mkMsg (i : String) (cb : String) : QueuedMessage :=
  { id := i, userEmail := ("user@example.com"),
    chatJID := ("123@s.whatsapp.net"), message := ("hello there"),
    callbackURL := cb, createdAt := 0, retries := 0, status := ("queued") }

/-- State reached from a fresh owner's queue by the fine-grained schedule
[enqueue, pop, failed send]; used by the capacity witness. -/
def fineRetryState : FineState :=
  { queue :=
      { userEmail := ("u@x"),
        messages := [{ mkMsg ("msg_a") ("") with retries := 1, status := ("retrying") }],
        lastSent := 0, burstCount := 0, hourlyCount := 0, dailyCount := 0,
        hourlyReset := NANOS_PER_HOUR, dailyReset := NANOS_PER_DAY,
        isProcessing := true },
    hold := none }

/-- A concrete queue whose daily counter is exhausted. -/
def fullDayQueue (m : QueuedMessage) : MessageQueue :=
  { userEmail := ("user@example.com"), messages := [m], lastSent := 0,
    burstCount := 0, hourlyCount := 0, dailyCount := 1000,
    hourlyReset := NANOS_PER_HOUR, dailyReset := NANOS_PER_DAY,
    isProcessing := true }

/-! ## Helper lemmas about the embedded operations -/

theorem canSendMessage_messages (now : Int) (q : MessageQueue) :
    (canSendMessage now q).2.messages = q.messages := by
  simp only [canSendMessage]
  split <;> split <;> split <;> try split
  all_goals rfl

theorem burst_reset_messages (q : MessageQueue) :
    (if q.burstCount ≥ BURST_ALLOWANCE then { q with burstCount := 0 } else q).messages
      = q.messages := by
  split <;> rfl

theorem procStep_nil_eq (q : MessageQueue) (now now2 : Int) (t : Option String)
    (hm : q.messages = []) :
    processQueueStep q now now2 t = ({ q with isProcessing := false }, IterResult.emptyExit) := by
  simp only [processQueueStep, hm]

theorem procStep_defer_eq (q : MessageQueue) (now now2 : Int) (t : Option String)
    (msg : QueuedMessage) (rest : List QueuedMessage)
    (hm : q.messages = msg :: rest)
    (hc : (canSendMessage now { q with messages := rest }).1 = false) :
    processQueueStep q now now2 t
      = ({ (canSendMessage now { q with messages := rest }).2 with messages := msg :: rest },
         IterResult.deferred NANOS_PER_MINUTE) := by
  simp only [processQueueStep, hm]
  rw [if_pos hc, canSendMessage_messages]

theorem procStep_sent_eq (q : MessageQueue) (now now2 : Int) (tid : String)
    (msg : QueuedMessage) (rest : List QueuedMessage)
    (hm : q.messages = msg :: rest)
    (hc : (canSendMessage now { q with messages := rest }).1 = true) :
    (processQueueStep q now now2 (some tid)).1.messages = rest ∧
    (processQueueStep q now now2 (some tid)).2
      = IterResult.sent { msg with status := ("sent") }
          (sendCallback msg.callbackURL msg.id ("sent") (some tid)) := by
  simp only [processQueueStep, hm]
  rw [if_neg (by simp [hc])]
  constructor
  · split <;> simp [canSendMessage_messages]
  · rfl

theorem procStep_retry_eq (q : MessageQueue) (now now2 : Int)
    (msg : QueuedMessage) (rest : List QueuedMessage)
    (hm : q.messages = msg :: rest)
    (hc : (canSendMessage now { q with messages := rest }).1 = true)
    (hlt : msg.retries + 1 < MAX_RETRIES) :
    (processQueueStep q now now2 none).1.messages
      = rest ++ [{ msg with retries := msg.retries + 1, status := ("retrying") }] ∧
    (processQueueStep q now now2 none).2
      = IterResult.retried { msg with retries := msg.retries + 1, status := ("retrying") } := by
  simp only [processQueueStep, hm]
  rw [if_neg (by simp [hc])]
  simp only [if_pos hlt]
  constructor
  · split <;> simp [canSendMessage_messages]
  · trivial

theorem procStep_permfail_eq (q : MessageQueue) (now now2 : Int)
    (msg : QueuedMessage) (rest : List QueuedMessage)
    (hm : q.messages = msg :: rest)
    (hc : (canSendMessage now { q with messages := rest }).1 = true)
    (hge : ¬ msg.retries + 1 < MAX_RETRIES) :
    (processQueueStep q now now2 none).1.messages = rest ∧
    (processQueueStep q now now2 none).2
      = IterResult.failedPerm { msg with retries := msg.retries + 1, status := ("failed") }
          (sendCallback msg.callbackURL msg.id ("failed") none) := by
  simp only [processQueueStep, hm]
  rw [if_neg (by simp [hc])]
  simp only [if_neg hge]
  constructor
  · split <;> simp [canSendMessage_messages]
  · trivial

theorem addMessage_full (msg : QueuedMessage) (q : MessageQueue)
    (h : MAX_QUEUE_PER_USER ≤ q.messages.length) :
    addMessage msg q = Except.error ("queue full (max 50 messages)") := by
  simp [addMessage, h]

theorem addMessage_ok_spec (msg : QueuedMessage) (q q1 : MessageQueue) (b : Bool)
    (h : addMessage msg q = Except.ok (q1, b)) :
    q1.messages = q.messages ++ [msg] ∧ q.messages.length < MAX_QUEUE_PER_USER := by
  by_cases hg : q.messages.length ≥ MAX_QUEUE_PER_USER
  · simp [addMessage, hg] at h
  · refine ⟨?_, by omega⟩
    simp only [addMessage, if_neg hg] at h
    split at h <;> (injection h with h1; injection h1 with h2 _; rw [← h2])

theorem bool_not_false {b : Bool} (h : ¬ b = false) : b = true := by
  cases b <;> simp_all

theorem procStep_length (q : MessageQueue) (now now2 : Int) (t : Option String) :
    (processQueueStep q now now2 t).1.messages.length ≤ q.messages.length := by
  rcases hq : q.messages with _ | ⟨msg, rest⟩
  · rw [procStep_nil_eq q now now2 t hq]
    simp [hq]
  · by_cases hc : (canSendMessage now { q with messages := rest }).1 = false
    · rw [procStep_defer_eq q now now2 t msg rest hq hc]
    · have hc' := bool_not_false hc
      cases t with
      | some tid =>
        rw [(procStep_sent_eq q now now2 tid msg rest hq hc').1]
        simp [hq]
      | none =>
        by_cases hr : msg.retries + 1 < MAX_RETRIES
        · rw [(procStep_retry_eq q now now2 msg rest hq hc' hr).1]
          simp [hq]
        · rw [(procStep_permfail_eq q now now2 msg rest hq hc' hr).1]
          simp [hq]

theorem runTrace_length_le (evs : List TraceEv) (q : MessageQueue)
    (h : q.messages.length ≤ MAX_QUEUE_PER_USER) :
    (runTrace q evs).queue.messages.length ≤ MAX_QUEUE_PER_USER := by
  induction evs generalizing q with
  | nil => simpa [runTrace] using h
  | cons ev evs ih =>
    cases ev with
    | enq m =>
      rcases ha : addMessage m q with e | ⟨q1, b⟩
      · simpa [runTrace, ha] using ih q h
      · have hs := addMessage_ok_spec m q q1 b ha
        have h1 : q1.messages.length ≤ MAX_QUEUE_PER_USER := by
          rw [hs.1]
          simp
          omega
        simpa [runTrace, ha] using ih q1 h1
    | drain now now2 t =>
      have hstep := procStep_length q now now2 t
      simpa [runTrace] using ih (processQueueStep q now now2 t).1 (le_trans hstep h)

theorem runTrace_invariant (evs : List TraceEv) (q : MessageQueue)
    (h : ∀ r ∈ (runTrace q evs).results, isRetryOrFail r = false) :
    (runTrace q evs).dispatched.map (fun m => m.id)
        ++ (runTrace q evs).queue.messages.map (fun m => m.id)
      = q.messages.map (fun m => m.id)
        ++ (runTrace q evs).accepted.map (fun m => m.id) := by
  induction evs generalizing q with
  | nil => simp [runTrace]
  | cons ev evs ih =>
    cases ev with
    | enq m =>
      rcases ha : addMessage m q with e | ⟨q1, b⟩
      · have h' : ∀ r ∈ (runTrace q evs).results, isRetryOrFail r = false := by
          intro r hr
          exact h r (by simpa [runTrace, ha] using hr)
        simpa [runTrace, ha] using ih q h'
      · have h' : ∀ r ∈ (runTrace q1 evs).results, isRetryOrFail r = false := by
          intro r hr
          exact h r (by simpa [runTrace, ha] using hr)
        have hs := addMessage_ok_spec m q q1 b ha
        have := ih q1 h'
        rw [hs.1] at this
        simp only [runTrace, ha, List.map_cons, List.map_append] at this ⊢
        rw [this]
        simp
    | drain now now2 t =>
      have h' : ∀ r ∈ (runTrace (processQueueStep q now now2 t).1 evs).results,
          isRetryOrFail r = false := by
        intro r hr
        refine h r ?_
        simp only [runTrace, List.mem_cons]
        exact Or.inr hr
      have hhead : isRetryOrFail (processQueueStep q now now2 t).2 = false :=
        h _ (by simp [runTrace])
      have ihq := ih (processQueueStep q now now2 t).1 h'
      rcases hq : q.messages with _ | ⟨msg, rest⟩
      · have he := procStep_nil_eq q now now2 t hq
        simp only [runTrace, he]
        simpa [hq, he] using ihq
      · by_cases hc : (canSendMessage now { q with messages := rest }).1 = false
        · have he := procStep_defer_eq q now now2 t msg rest hq hc
          simp only [runTrace, he]
          simpa [hq, he] using ihq
        · have hc' := bool_not_false hc
          cases t with
          | some tid =>
            obtain ⟨hmsgs, hres⟩ := procStep_sent_eq q now now2 tid msg rest hq hc'
            rw [hmsgs] at ihq
            simp only [runTrace, hres, hq, List.map_cons, List.cons_append]
            rw [ihq]
          | none =>
            by_cases hr : msg.retries + 1 < MAX_RETRIES
            · have hres := (procStep_retry_eq q now now2 msg rest hq hc' hr).2
              rw [hres] at hhead
              simp [isRetryOrFail] at hhead
            · have hres := (procStep_permfail_eq q now now2 msg rest hq hc' hr).2
              rw [hres] at hhead
              simp [isRetryOrFail] at hhead

theorem findMessageAux_mem (l : List QueuedMessage) (mid : String) (i : Nat)
    (st : String) (r p : Nat) (h : findMessageAux l mid i = some (st, r, p)) :
    ∃ m ∈ l, m.id = mid ∧ m.status = st ∧ m.retries = r := by
  induction l generalizing i with
  | nil => simp [findMessageAux] at h
  | cons m ms ih =>
    by_cases hm : m.id = mid
    · refine ⟨m, by simp, hm, ?_⟩
      simp only [findMessageAux, if_pos hm] at h
      injection h with h1
      injection h1 with h2 h3
      injection h3 with h4 h5
      exact ⟨h2, h4⟩
    · simp only [findMessageAux, if_neg hm] at h
      obtain ⟨m', hmem, hrest⟩ := ih (i + 1) h
      exact ⟨m', List.mem_cons_of_mem m hmem, hrest⟩

theorem findMessageAux_none (l : List QueuedMessage) (mid : String) (i : Nat)
    (h : ∀ m ∈ l, m.id ≠ mid) : findMessageAux l mid i = none := by
  induction l generalizing i with
  | nil => rfl
  | cons m ms ih =>
    have hm : ¬ m.id = mid := h m (by simp)
    simp only [findMessageAux, if_neg hm]
    exact ih (i + 1) (fun m' hm' => h m' (List.mem_cons_of_mem m hm'))

theorem utf8EncodeChar_length_pos (c : Char) : 1 ≤ (utf8EncodeChar c).length := by
  simp only [utf8EncodeChar]
  split <;> try split
  all_goals simp_all
  split <;> simp

theorem utf8Bytes_length_ge (s : List Char) : s.length ≤ (utf8Bytes s).length := by
  induction s with
  | nil => simp [utf8Bytes]
  | cons c cs ih =>
    simp only [utf8Bytes, List.length_append, List.length_cons]
    have := utf8EncodeChar_length_pos c
    omega

theorem capsCount_le_letterCount (s : List Char) : capsCount s ≤ letterCount s := by
  simp only [capsCount, letterCount]
  apply List.countP_mono_left
  intro c _ h
  simp only [isAsciiUpper, Bool.and_eq_true, decide_eq_true_eq] at h
  simp [isAsciiLetter, h]

theorem letterCount_le_length (s : List Char) : letterCount s ≤ s.length :=
  List.countP_le_length _

theorem enqueueForUser_fresh (userEmail : String) (m : QueuedMessage) :
    (enqueueForUser 0 userEmail m (fun _ => none)).2
      = Except.ok (initialQueue userEmail m, true) := by
  simp [enqueueForUser, getOrCreateQueue, addMessage, initialQueue,
    MAX_QUEUE_PER_USER, NANOS_PER_HOUR, NANOS_PER_DAY]

/-! ## Claim theorems -/

/-- C4: in every drain-loop iteration whose rate-window check denies
admission, the popped message is pushed back to the head of the pending
list (so `messages` is exactly as before the pop, order unchanged) and the
iteration reports the fixed one-minute (60000000000 ns) backoff before the
loop re-checks; the message is deferred, never dropped. -/
theorem rate_limited_iteration_defers_to_head (q : MessageQueue) (now now2 : Int)
    (t : Option String) (msg : QueuedMessage) (rest : List QueuedMessage)
    (hm : q.messages = msg :: rest)
    (hc : (canSendMessage now { q with messages := rest }).1 = false) :
    (processQueueStep q now now2 t).1.messages = msg :: rest ∧
    (processQueueStep q now now2 t).2 = IterResult.deferred NANOS_PER_MINUTE ∧
    NANOS_PER_MINUTE = 60000000000 := by
  rw [procStep_defer_eq q now now2 t msg rest hm hc]
  exact ⟨rfl, rfl, rfl⟩

/-- Witness for C4: a queue with an exhausted daily counter defers its head
message back to the head with the one-minute backoff. -/
theorem rate_limited_iteration_defers_to_head_witness :
    (processQueueStep (fullDayQueue (mkMsg ("msg_a") (""))) 0 0 none).1.messages
        = [mkMsg ("msg_a") ("")] ∧
    (processQueueStep (fullDayQueue (mkMsg ("msg_a") (""))) 0 0 none).2
        = IterResult.deferred NANOS_PER_MINUTE :=
  ⟨(rate_limited_iteration_defers_to_head (fullDayQueue (mkMsg ("msg_a") ("")))
      0 0 none (mkMsg ("msg_a") ("")) [] rfl (by decide)).1,
   (rate_limited_iteration_defers_to_head (fullDayQueue (mkMsg ("msg_a") ("")))
      0 0 none (mkMsg ("msg_a") ("")) [] rfl (by decide)).2.1⟩

/-- C5: the rate-window check lazily rolls each window: when `now` is past
the hourly (resp. daily) reset marker the corresponding counter is zeroed
and the marker becomes exactly `now` plus one hour (resp. 24 hours), i.e.
one window length from now; otherwise counter and marker are untouched.
After any rollover the check returns `false` exactly when the hourly count
is at or above 200 or the daily count is at or above 1000. -/
theorem canSendMessage_rollover_and_limits (q : MessageQueue) (now : Int) :
    ((now > q.hourlyReset →
        (canSendMessage now q).2.hourlyCount = 0 ∧
        (canSendMessage now q).2.hourlyReset = now + NANOS_PER_HOUR) ∧
     (¬ now > q.hourlyReset →
        (canSendMessage now q).2.hourlyCount = q.hourlyCount ∧
        (canSendMessage now q).2.hourlyReset = q.hourlyReset)) ∧
    ((now > q.dailyReset →
        (canSendMessage now q).2.dailyCount = 0 ∧
        (canSendMessage now q).2.dailyReset = now + NANOS_PER_DAY) ∧
     (¬ now > q.dailyReset →
        (canSendMessage now q).2.dailyCount = q.dailyCount ∧
        (canSendMessage now q).2.dailyReset = q.dailyReset)) ∧
    ((canSendMessage now q).1 = false ↔
      MAX_HOURLY_MESSAGES ≤ (canSendMessage now q).2.hourlyCount ∨
      MAX_DAILY_MESSAGES ≤ (canSendMessage now q).2.dailyCount) := by
  by_cases h1 : now > q.hourlyReset <;> by_cases h2 : now > q.dailyReset <;>
    simp only [canSendMessage, h1, h2, if_true, if_false, ite_true, ite_false,
      not_true, not_false_iff] <;>
    refine ⟨⟨fun ha => ?_, fun ha => ?_⟩, ⟨fun hb => ?_, fun hb => ?_⟩, ?_⟩ <;>
    first
      | (try contradiction) <;> split <;> simp_all <;> omega
      | (split <;> [skip; split]) <;> simp_all <;> omega

/-- Witness for C5: with both markers in the past, both counters reset and
both markers advance exactly one window from now; the check then admits. -/
theorem canSendMessage_rollover_and_limits_witness :
    (canSendMessage 100 ({ fullDayQueue (mkMsg ("msg_a") ("")) with
        hourlyReset := 5, dailyReset := 7, hourlyCount := 9 })).2.hourlyCount = 0 ∧
    (canSendMessage 100 ({ fullDayQueue (mkMsg ("msg_a") ("")) with
        hourlyReset := 5, dailyReset := 7, hourlyCount := 9 })).2.hourlyReset
      = 100 + NANOS_PER_HOUR := by
  have h := canSendMessage_rollover_and_limits
    ({ fullDayQueue (mkMsg ("msg_a") ("")) with
        hourlyReset := 5, dailyReset := 7, hourlyCount := 9 }) 100
  exact ⟨(h.1.1 (by decide)).1, (h.1.1 (by decide)).2⟩

/-- C10: `estimateDelay` returns 0 for non-positive positions; for positive
positions it is exactly `(position - 1)` seconds plus
`floor((position - 1) / 5)` times 3 seconds (in nanoseconds); and it is
monotone nondecreasing, so a message never reports a smaller estimated
delay than any message ahead of it. -/
theorem estimateDelay_formula_and_monotone :
    (∀ p : Int, p ≤ 0 → estimateDelay p = 0) ∧
    (∀ p : Int, 0 < p →
        estimateDelay p = (p - 1) * 1000000000 + ((p - 1) / 5) * 3000000000) ∧
    (∀ p r : Int, p ≤ r → estimateDelay p ≤ estimateDelay r) := by
  have hzero : ∀ p : Int, p ≤ 0 → estimateDelay p = 0 := by
    intro p hp
    simp [estimateDelay, hp]
  have hformula : ∀ p : Int, 0 < p →
      estimateDelay p = (p - 1) * 1000000000 + ((p - 1) / 5) * 3000000000 := by
    intro p hp
    have hnp : ¬ p ≤ 0 := by omega
    have h5 : (0 : Int) ≤ (p - 1) / 5 := Int.ediv_nonneg (by omega) (by decide)
    simp only [estimateDelay, if_neg hnp, MESSAGE_DELAY, BURST_COOLDOWN,
      BURST_ALLOWANCE, Nat.cast_ofNat]
    by_cases hcy : (p - 1) / 5 > 0
    · rw [if_pos hcy]
    · rw [if_neg hcy]
      have h0 : (p - 1) / 5 = 0 := by omega
      rw [h0]
      ring
  have hnonneg : ∀ p : Int, 0 ≤ estimateDelay p := by
    intro p
    by_cases hp : p ≤ 0
    · rw [hzero p hp]
    · have hp' : 0 < p := by omega
      rw [hformula p hp']
      have ha : (0 : Int) ≤ (p - 1) * 1000000000 := mul_nonneg (by omega) (by decide)
      have hb : (0 : Int) ≤ (p - 1) / 5 := Int.ediv_nonneg (by omega) (by decide)
      have hc : (0 : Int) ≤ ((p - 1) / 5) * 3000000000 := mul_nonneg hb (by decide)
      omega
  refine ⟨hzero, hformula, ?_⟩
  intro p r hpr
  by_cases hp : p ≤ 0
  · rw [hzero p hp]
    exact hnonneg r
  · have hp' : 0 < p := by omega
    have hr' : 0 < r := by omega
    rw [hformula p hp', hformula r hr']
    have h1 : (p - 1) * 1000000000 ≤ (r - 1) * 1000000000 :=
      mul_le_mul_of_nonneg_right (by omega) (by decide)
    have h2 : (p - 1) / 5 ≤ (r - 1) / 5 := Int.ediv_le_ediv (by decide) (by omega)
    have h3 : ((p - 1) / 5) * 3000000000 ≤ ((r - 1) / 5) * 3000000000 :=
      mul_le_mul_of_nonneg_right h2 (by decide)
    omega

/-- Witness for C10: position 7 is one burst cycle past the allowance, and
positions 3 and 7 are ordered. -/
theorem estimateDelay_formula_and_monotone_witness :
    estimateDelay (-2) = 0 ∧
    estimateDelay 7 = (7 - 1) * 1000000000 + ((7 - 1) / 5) * 3000000000 ∧
    estimateDelay 3 ≤ estimateDelay 7 :=
  ⟨estimateDelay_formula_and_monotone.1 (-2) (by decide),
   estimateDelay_formula_and_monotone.2.1 7 (by decide),
   estimateDelay_formula_and_monotone.2.2 3 7 (by decide)⟩

/-- C6 (refuted — evidence for the code bug): no iteration of the drain
loop ever assigns the status "sending" to any message.  Starting from a
queue none of whose messages carry status "sending", neither the resulting
pending list nor the popped message carried by the iteration outcome ever
holds status "sending": the only statuses the loop writes are "sent",
"retrying" and "failed", so a message moves from "queued" directly to a
post-send status and the documented intermediate `sending` state does not
occur. -/
theorem drain_never_sets_sending (q : MessageQueue) (now now2 : Int)
    (t : Option String)
    (h : ∀ m ∈ q.messages, m.status ≠ ("sending")) :
    (∀ m ∈ (processQueueStep q now now2 t).1.messages, m.status ≠ ("sending")) ∧
    (∀ m ∈ resultMessages (processQueueStep q now now2 t).2, m.status ≠ ("sending")) := by
  rcases hq : q.messages with _ | ⟨msg, rest⟩
  · rw [procStep_nil_eq q now now2 t hq]
    constructor
    · intro m hm
      exact h m (by simpa using hm)
    · intro m hm
      simp [resultMessages] at hm
  · have hrest : ∀ m ∈ rest, m.status ≠ ("sending") := by
      intro m hm
      exact h m (by rw [hq]; exact List.mem_cons_of_mem msg hm)
    by_cases hc : (canSendMessage now { q with messages := rest }).1 = false
    · rw [procStep_defer_eq q now now2 t msg rest hq hc]
      refine ⟨?_, by simp [resultMessages]⟩
      intro m hm
      exact h m (by rw [hq]; simpa using hm)
    · have hc' := bool_not_false hc
      cases t with
      | some tid =>
        obtain ⟨hmsgs, hres⟩ := procStep_sent_eq q now now2 tid msg rest hq hc'
        rw [hmsgs, hres]
        exact ⟨hrest, by simp [resultMessages]⟩
      | none =>
        by_cases hr : msg.retries + 1 < MAX_RETRIES
        · obtain ⟨hmsgs, hres⟩ := procStep_retry_eq q now now2 msg rest hq hc' hr
          rw [hmsgs, hres]
          constructor
          · intro m hm
            rcases List.mem_append.1 hm with hmem | hmem
            · exact hrest m hmem
            · simp at hmem
              rw [hmem]
              simp
          · simp [resultMessages]
        · obtain ⟨hmsgs, hres⟩ := procStep_permfail_eq q now now2 msg rest hq hc' hr
          rw [hmsgs, hres]
          exact ⟨hrest, by simp [resultMessages]⟩

/-- Witness for C6: a fresh queue with one queued message, successful
transport: no "sending" status appears anywhere in the iteration. -/
theorem drain_never_sets_sending_witness :
    (∀ m ∈ (processQueueStep (initialQueue ("u@x") (mkMsg ("msg_a") ("")))
        0 0 (some ("W1"))).1.messages, m.status ≠ ("sending")) ∧
    (∀ m ∈ resultMessages (processQueueStep (initialQueue ("u@x") (mkMsg ("msg_a") ("")))
        0 0 (some ("W1"))).2, m.status ≠ ("sending")) :=
  drain_never_sets_sending (initialQueue ("u@x") (mkMsg ("msg_a") ("")))
    0 0 (some ("W1")) (by decide)

/-- C1: transport-failure handling of the drain loop.  (1) Generally: when
the transport call for the popped head fails and the incremented attempt
counter is still below the retry ceiling `MAX_RETRIES = 3`, the message is
re-appended to the tail with the counter incremented (status "retrying").
(2) A freshly enqueued message whose transport calls fail exactly 3 times
ends in the terminal "failed" state, leaves the queue, and fires exactly
one delivery callback, with status "failed".  (3) A freshly enqueued
message that succeeds on attempt `k ≤ 3` ends in the terminal "sent" state
and fires exactly one callback, with status "sent" and the
transport-assigned message identifier. -/
theorem transport_retry_policy :
    (∀ (q : MessageQueue) (now now2 : Int) (msg : QueuedMessage)
        (rest : List QueuedMessage),
        q.messages = msg :: rest →
        (canSendMessage now { q with messages := rest }).1 = true →
        msg.retries + 1 < MAX_RETRIES →
        (processQueueStep q now now2 none).1.messages
            = rest ++ [{ msg with retries := msg.retries + 1, status := ("retrying") }] ∧
        (processQueueStep q now now2 none).2
            = IterResult.retried { msg with retries := msg.retries + 1, status := ("retrying") }) ∧
    (∀ (owner : String) (m : QueuedMessage), m.retries = 0 → m.callbackURL ≠ "" →
        (runDrain (initialQueue owner m) [none, none, none]).2
            = [IterResult.retried { m with retries := 1, status := ("retrying") },
               IterResult.retried { m with retries := 2, status := ("retrying") },
               IterResult.failedPerm { m with retries := 3, status := ("failed") }
                 [⟨m.callbackURL, m.id, ("failed"), none⟩]] ∧
        ((runDrain (initialQueue owner m) [none, none, none]).2.map callbacksOf).flatten
            = [⟨m.callbackURL, m.id, ("failed"), none⟩] ∧
        (runDrain (initialQueue owner m) [none, none, none]).1.messages = []) ∧
    (∀ (owner : String) (m : QueuedMessage) (k : Nat) (tid : String),
        m.retries = 0 → m.callbackURL ≠ "" → 1 ≤ k → k ≤ 3 →
        ((runDrain (initialQueue owner m)
            (List.replicate (k - 1) none ++ [some tid])).2.map callbacksOf).flatten
            = [⟨m.callbackURL, m.id, ("sent"), some tid⟩] ∧
        (runDrain (initialQueue owner m)
            (List.replicate (k - 1) none ++ [some tid])).2.getLast?
            = some (IterResult.sent { m with retries := k - 1, status := ("sent") }
                [⟨m.callbackURL, m.id, ("sent"), some tid⟩]) ∧
        (runDrain (initialQueue owner m)
            (List.replicate (k - 1) none ++ [some tid])).1.messages = []) := by
  refine ⟨?_, ?_, ?_⟩
  · intro q now now2 msg rest hm hc hlt
    exact procStep_retry_eq q now now2 msg rest hm hc hlt
  · intro owner m hret hurl
    refine ⟨?_, ?_, ?_⟩ <;>
      simp [runDrain, processQueueStep, canSendMessage, initialQueue, addMessage,
        sendCallback, callbacksOf, hret, hurl, MAX_RETRIES, BURST_ALLOWANCE,
        NANOS_PER_HOUR, NANOS_PER_DAY, MAX_DAILY_MESSAGES, MAX_HOURLY_MESSAGES]
  · intro owner m k tid hret hurl hk1 hk3
    interval_cases k <;>
      refine ⟨?_, ?_, ?_⟩ <;>
        simp [runDrain, processQueueStep, canSendMessage, initialQueue, addMessage,
          sendCallback, callbacksOf, hret, hurl, MAX_RETRIES, BURST_ALLOWANCE,
          NANOS_PER_HOUR, NANOS_PER_DAY, MAX_DAILY_MESSAGES, MAX_HOURLY_MESSAGES]

/-- Witness for C1: a concrete message with a callback URL that fails three
times fires exactly the one "failed" callback, and one that succeeds on
attempt 2 fires exactly the one "sent" callback. -/
theorem transport_retry_policy_witness :
    ((runDrain (initialQueue ("u@x") (mkMsg ("msg_a") ("http://cb")))
        [none, none, none]).2.map callbacksOf).flatten
      = [⟨("http://cb"), ("msg_a"), ("failed"), none⟩] ∧
    ((runDrain (initialQueue ("u@x") (mkMsg ("msg_a") ("http://cb")))
        (List.replicate (2 - 1) none ++ [some ("W1")])).2.map callbacksOf).flatten
      = [⟨("http://cb"), ("msg_a"), ("sent"), some ("W1")⟩] :=
  ⟨(transport_retry_policy.2.1 ("u@x") (mkMsg ("msg_a") ("http://cb"))
      rfl (by decide)).2.1,
   (transport_retry_policy.2.2 ("u@x") (mkMsg ("msg_a") ("http://cb"))
      2 ("W1") rfl (by decide) (by decide) (by decide)).1⟩

/-- C2: FIFO dispatch order.  `addMessage` appends to the tail and the
drain loop pops the head, so over any interleaved trace of enqueues and
drain iterations in which no iteration ends in a transport failure
(hence no retry-to-tail re-append), the sequence of dispatched message ids
is a prefix of the sequence of accepted enqueue ids — strict FIFO order of
enqueue.  (Rate-limit deferrals re-insert at the head and so cannot break
the order either.) -/
theorem fifo_dispatch_order (q : MessageQueue) (evs : List TraceEv)
    (hq : q.messages = [])
    (h : ∀ r ∈ (runTrace q evs).results, isRetryOrFail r = false) :
    (runTrace q evs).dispatched.map (fun m => m.id)
      <+: (runTrace q evs).accepted.map (fun m => m.id) := by
  refine ⟨(runTrace q evs).queue.messages.map (fun m => m.id), ?_⟩
  have hinv := runTrace_invariant evs q h
  rw [hq] at hinv
  simpa using hinv

/-- Witness for C2: two enqueues followed by two successful drain
iterations dispatch in enqueue order. -/
theorem fifo_dispatch_order_witness :
    (runTrace ((getOrCreateQueue 0 ("u@x") (fun _ => none)).1)
        [TraceEv.enq (mkMsg ("msg_a") ("")), TraceEv.enq (mkMsg ("msg_b") ("")),
         TraceEv.drain 0 0 (some ("W1")), TraceEv.drain 0 0 (some ("W2"))]).dispatched.map
        (fun m => m.id)
      <+: (runTrace ((getOrCreateQueue 0 ("u@x") (fun _ => none)).1)
        [TraceEv.enq (mkMsg ("msg_a") ("")), TraceEv.enq (mkMsg ("msg_b") ("")),
         TraceEv.drain 0 0 (some ("W1")), TraceEv.drain 0 0 (some ("W2"))]).accepted.map
        (fun m => m.id) :=
  fifo_dispatch_order ((getOrCreateQueue 0 ("u@x") (fun _ => none)).1) _ rfl (by decide)

theorem fineStep_preserves_inv (s : FineState) (st : FineStep) (s' : FineState)
    (hinv : fineInv s = true) (h : fineStep s st = some s') :
    fineInv s' = true := by
  cases st with
  | enq m =>
    rcases ha : addMessage m s.queue with e | ⟨q1, b⟩
    · simp only [fineStep, ha] at h
      injection h with h1
      rw [← h1]
      exact hinv
    · have hs := addMessage_ok_spec m s.queue q1 b ha
      have hlen : q1.messages.length = s.queue.messages.length + 1 := by
        rw [hs.1]
        simp
      have hlt := hs.2
      simp only [fineStep, ha] at h
      injection h with h1
      rw [← h1]
      cases hh : s.hold <;>
        simp only [fineInv, hh, decide_eq_true_eq] at hinv ⊢ <;>
        omega
  | pop =>
    cases hh : s.hold with
    | some m => simp [fineStep, hh] at h
    | none =>
      rcases hm : s.queue.messages with _ | ⟨msg, rest⟩
      · simp [fineStep, hh, hm] at h
      · simp only [fineStep, hh, hm] at h
        injection h with h1
        rw [← h1]
        simp only [fineInv, hh, hm, decide_eq_true_eq, List.length_cons] at hinv ⊢
        omega
  | rateDefer now =>
    cases hh : s.hold with
    | none => simp [fineStep, hh] at h
    | some msg =>
      simp only [fineInv, hh, decide_eq_true_eq] at hinv
      simp only [fineStep, hh] at h
      split at h
      · injection h with h1
        rw [← h1]
        simp only [fineInv, decide_eq_true_eq, List.length_cons, canSendMessage_messages]
        omega
      · exact absurd h (by simp)
  | sendDone now now2 transport =>
    cases hh : s.hold with
    | none => simp [fineStep, hh] at h
    | some msg =>
      simp only [fineInv, hh, decide_eq_true_eq] at hinv
      simp only [fineStep, hh] at h
      split at h
      · split at h
        · injection h with h1
          rw [← h1]
          simp only [fineInv, decide_eq_true_eq]
          split
          all_goals simp only [canSendMessage_messages]
          all_goals omega
        · split at h <;> injection h with h1 <;> rw [← h1] <;>
            simp only [fineInv, decide_eq_true_eq, List.length_append,
              List.length_cons, List.length_nil]
          · split
            all_goals simp only [canSendMessage_messages]
            all_goals omega
          · split
            all_goals simp only [canSendMessage_messages]
            all_goals omega
      · exact absurd h (by simp)

theorem runFine_preserves_inv (sched : List FineStep) (s s' : FineState)
    (hinv : fineInv s = true) (h : runFine s sched = some s') :
    fineInv s' = true := by
  induction sched generalizing s with
  | nil =>
    simp only [runFine] at h
    injection h with h1
    rw [← h1]
    exact hinv
  | cons st rest ih =>
    simp only [runFine] at h
    rcases hst : fineStep s st with _ | s1
    · rw [hst] at h
      exact absurd h (by simp)
    · rw [hst] at h
      exact ih s1 (fineStep_preserves_inv s st s1 hinv hst) h

/-- C3 counterexample (refutes the 50-bound as stated): a real schedule of
the code's critical sections exceeds the capacity.  Fifty accepted enqueues
fill a fresh queue; the worker pops the head (lock released at line 419,
list length 49); a concurrent `addMessage` sees 49 < 50 and appends (length
50, admission open since failures never bump the rate counters); the
transport call then fails and the post-send critical section re-appends the
held message at the tail (line 478) with no capacity check — the pending
list now holds 51 messages, above `MAX_QUEUE_PER_USER = 50`. -/
theorem queue_capacity_overflow_counterexample :
    (runFine { queue := (getOrCreateQueue 0 ("u@x") (fun _ => none)).1, hold := none }
        (List.replicate 50 (FineStep.enq (mkMsg ("msg_a") (""))) ++
         [FineStep.pop, FineStep.enq (mkMsg ("msg_b") ("")),
          FineStep.sendDone 0 0 none])).map
        (fun s => (s.queue.messages.length, s.hold))
      = some (51, none) ∧
    MAX_QUEUE_PER_USER < 51 := by
  constructor
  · decide
  · decide

/-- C3 as amended: `addMessage` on a queue already holding 50 messages
returns the QueueFull error (and, being effect-free on error, leaves the
queue unchanged), and one owner's enqueue never touches another owner's
registry slot.  The drain loop's re-insertions preserve the 50-bound on
every trace in which no enqueue lands between the pop and the re-insertion
(the sequential atomic-iteration traces, third conjunct) — but the
re-insert paths run in a later critical section than the pop and perform no
capacity check, so an enqueue refilling the list to 50 in that window makes
the re-insertion reach 51 (see the counterexample); the bound that does
hold over all interleavings is 50 while the worker holds a popped message
and 51 otherwise, so the pending list never exceeds 51. -/
theorem queue_capacity_amended :
    (∀ (msg : QueuedMessage) (q : MessageQueue), q.messages.length = 50 →
        addMessage msg q = Except.error ("queue full (max 50 messages)")) ∧
    (∀ (q : MessageQueue) (evs : List TraceEv),
        q.messages.length ≤ MAX_QUEUE_PER_USER →
        (runTrace q evs).queue.messages.length ≤ MAX_QUEUE_PER_USER) ∧
    (∀ (reg : Registry) (now : Int) (emailA emailB : String) (msg : QueuedMessage),
        emailB ≠ emailA →
        (enqueueForUser now emailA msg reg).1 emailB = reg emailB) ∧
    (∀ (s s' : FineState) (sched : List FineStep),
        fineInv s = true → runFine s sched = some s' →
        s'.queue.messages.length ≤ MAX_QUEUE_PER_USER + 1) := by
  refine ⟨?_, ?_, ?_, ?_⟩
  · intro msg q h
    exact addMessage_full msg q (by simp [MAX_QUEUE_PER_USER, h])
  · intro q evs h
    exact runTrace_length_le evs q h
  · intro reg now emailA emailB msg hne
    simp only [enqueueForUser, getOrCreateQueue]
    rcases hr : reg emailA with _ | q0
    · simp only []
      rcases ha : addMessage msg
          ({ userEmail := emailA, messages := [], lastSent := 0, burstCount := 0,
             hourlyCount := 0, dailyCount := 0, hourlyReset := now + NANOS_PER_HOUR,
             dailyReset := now + NANOS_PER_DAY, isProcessing := false } : MessageQueue) with
          e | p
      · simp [ha, hne]
      · simp [ha, hne]
    · simp only []
      rcases ha : addMessage msg q0 with e | p
      · simp [ha]
      · simp [ha, hne]
  · intro s s' sched hinv h
    have hinv' := runFine_preserves_inv sched s s' hinv h
    cases hh : s'.hold <;>
      simp only [fineInv, hh, decide_eq_true_eq] at hinv' <;>
      omega

/-- Witness for C3's amended statement: the full-queue rejection, a bounded
sequential trace, the isolation of another owner, and the 51-bound at the
state reached by the fine-grained schedule [enqueue, pop, failed send]. -/
theorem queue_capacity_amended_witness :
    addMessage (mkMsg ("msg_b") (""))
        ({ fullDayQueue (mkMsg ("msg_a") ("")) with
            messages := List.replicate 50 (mkMsg ("msg_a") ("")) })
      = Except.error ("queue full (max 50 messages)") ∧
    (runTrace ((getOrCreateQueue 0 ("u@x") (fun _ => none)).1)
        [TraceEv.enq (mkMsg ("msg_a") ("")),
         TraceEv.drain 0 0 none]).queue.messages.length ≤ MAX_QUEUE_PER_USER ∧
    (enqueueForUser 0 ("a@x") (mkMsg ("msg_a") ("")) (fun _ => none)).1 ("b@x") = none ∧
    fineRetryState.queue.messages.length ≤ MAX_QUEUE_PER_USER + 1 := by
  refine ⟨?_, ?_, ?_, ?_⟩
  · exact queue_capacity_amended.1 (mkMsg ("msg_b") ("")) _ (by decide)
  · exact queue_capacity_amended.2.1 _ _ (by decide)
  · exact queue_capacity_amended.2.2.1 (fun _ => none) 0 ("a@x") ("b@x")
      (mkMsg ("msg_a") ("")) (by decide)
  · exact queue_capacity_amended.2.2.2
      { queue := (getOrCreateQueue 0 ("u@x") (fun _ => none)).1, hold := none }
      fineRetryState
      [FineStep.enq (mkMsg ("msg_a") ("")), FineStep.pop, FineStep.sendDone 0 0 none]
      (by decide) (by decide)

/-- C7: the spam classifier's reference vectors.  "BUY NOW!!! FREE MONEY"
is rejected (denylist substring), "see you at 5pm" passes (no rule
matches), every 20-character message containing exactly 18 ASCII uppercase
letters is rejected (capitalisation ratio above 0.7 at byte length above
10), and "aaaaaaaaaa test" is rejected (a non-space character repeated at
least 5 times). -/
theorem isSpamPattern_reference_vectors :
    (∀ owner : String, isSpamPattern ("BUY NOW!!! FREE MONEY") owner = true) ∧
    (∀ owner : String, isSpamPattern ("see you at 5pm") owner = false) ∧
    (∀ (owner s : String), s.data.length = 20 → capsCount s.data = 18 →
        isSpamPattern s owner = true) ∧
    (∀ owner : String, isSpamPattern ("aaaaaaaaaa test") owner = true) := by
  refine ⟨fun owner => by rfl, fun owner => by rfl, ?_, fun owner => by rfl⟩
  intro owner s hlen hcaps
  have hbytes : 20 ≤ (utf8Bytes s.data).length := by
    have := utf8Bytes_length_ge s.data
    omega
  have hletters : capsCount s.data ≤ letterCount s.data := capsCount_le_letterCount s.data
  have hle : letterCount s.data ≤ 20 := by
    have := letterCount_le_length s.data
    omega
  have hmid : (decide ((utf8Bytes s.data).length > 10) &&
      decide (letterCount s.data > 0) &&
      decide (10 * capsCount s.data > 7 * letterCount s.data)) = true := by
    simp only [Bool.and_eq_true, decide_eq_true_eq]
    refine ⟨⟨by omega, by omega⟩, by omega⟩
  simp only [isSpamPattern]
  rw [hmid]
  simp

/-- Witness for C7: a concrete 20-character string with 18 uppercase
letters is classified as spam. -/
theorem isSpamPattern_reference_vectors_witness :
    isSpamPattern ("AAAAAAAAAAAAAAAAAAxy") ("owner@example.com") = true :=
  isSpamPattern_reference_vectors.2.2.1 ("owner@example.com")
    ("AAAAAAAAAAAAAAAAAAxy") (by decide) (by decide)

/-- C8 counterexample: a freshly enqueued message that is sent successfully
reaches the terminal "sent" state (the iteration outcome carries it and the
"sent" callback), yet the single-message status lookup for its id against
the resulting queue returns `none` — the 404 "Message not found in queue" —
because the handler only scans the pending list, which the terminal message
has left.  The claim asserts the query still returns the message's state
instead of not-found, so this run refutes it. -/
theorem status_lookup_after_terminal_counterexample :
    (processQueueStep (initialQueue ("u@x") (mkMsg ("msg_a") ("http://cb")))
        0 0 (some ("W1"))).2
      = IterResult.sent { mkMsg ("msg_a") ("http://cb") with status := ("sent") }
          [⟨("http://cb"), ("msg_a"), ("sent"), some ("W1")⟩] ∧
    findMessage (processQueueStep (initialQueue ("u@x") (mkMsg ("msg_a") ("http://cb")))
        0 0 (some ("W1"))).1 ("msg_a") = none := by
  decide

/-- C8 as amended: the single-message status query answers exactly for ids
still in the pending list — a hit returns that message's state and attempt
count — and once a message reaches a terminal state it has been popped from
the pending list, so the query for its id returns not-found; terminal
outcomes are observable only via the delivery callback. -/
theorem status_lookup_pending_only :
    (∀ (q : MessageQueue) (mid st : String) (r p : Nat),
        findMessage q mid = some (st, r, p) →
        ∃ m ∈ q.messages, m.id = mid ∧ m.status = st ∧ m.retries = r) ∧
    (∀ (q : MessageQueue) (mid : String),
        (∀ m ∈ q.messages, m.id ≠ mid) → findMessage q mid = none) ∧
    (∀ (q : MessageQueue) (now now2 : Int) (tid : String) (msg : QueuedMessage)
        (rest : List QueuedMessage),
        q.messages = msg :: rest →
        (canSendMessage now { q with messages := rest }).1 = true →
        (∀ m ∈ rest, m.id ≠ msg.id) →
        (processQueueStep q now now2 (some tid)).2
            = IterResult.sent { msg with status := ("sent") }
                (sendCallback msg.callbackURL msg.id ("sent") (some tid)) ∧
        findMessage (processQueueStep q now now2 (some tid)).1 msg.id = none) := by
  refine ⟨?_, ?_, ?_⟩
  · intro q mid st r p h
    exact findMessageAux_mem q.messages mid 1 st r p h
  · intro q mid h
    exact findMessageAux_none q.messages mid 1 h
  · intro q now now2 tid msg rest hm hc hids
    obtain ⟨hmsgs, hres⟩ := procStep_sent_eq q now now2 tid msg rest hm hc
    refine ⟨hres, ?_⟩
    unfold findMessage
    rw [hmsgs]
    exact findMessageAux_none rest msg.id 1 hids

/-- Witness for C8's amended statement: concrete instantiations of all
three components. -/
theorem status_lookup_pending_only_witness :
    (∃ m ∈ (initialQueue ("u@x") (mkMsg ("msg_b") (""))).messages,
        m.id = ("msg_b") ∧ m.status = ("queued") ∧ m.retries = 0) ∧
    findMessage (initialQueue ("u@x") (mkMsg ("msg_b") (""))) ("msg_z") = none ∧
    findMessage (processQueueStep (initialQueue ("u@x") (mkMsg ("msg_b") ("")))
        0 0 (some ("W2"))).1 ("msg_b") = none :=
  ⟨status_lookup_pending_only.1 (initialQueue ("u@x") (mkMsg ("msg_b") ("")))
      ("msg_b") ("queued") 0 1 (by decide),
   status_lookup_pending_only.2.1 (initialQueue ("u@x") (mkMsg ("msg_b") ("")))
      ("msg_z") (by decide),
   (status_lookup_pending_only.2.2 (initialQueue ("u@x") (mkMsg ("msg_b") ("")))
      0 0 ("W2") (mkMsg ("msg_b") ("")) [] rfl (by decide) (by decide)).2⟩

/-- C9 (refuted — evidence for the code bug): the missed-wakeup race.  The
schedule below is a real interleaving of the code's lock-protected critical
sections: enqueue m_a (spawns the worker), the worker sends m_a, the worker
observes the empty list and breaks out of its loop (deferred flag-clear not
yet run), an enqueue of m_b observes `IsProcessing = true` and therefore
does not spawn a worker, and finally the worker's deferred
`IsProcessing = false` write runs and the goroutine exits.  The final state
has a non-empty pending list, `IsProcessing = false`, and no worker
running: message m_b is stranded, which the claim says cannot happen. -/
theorem stranded_message_race :
    (runSchedule { queue := (getOrCreateQueue 0 ("u@x") (fun _ => none)).1,
                   worker := WorkerPhase.notRunning }
        [ConcStep.enq (mkMsg ("msg_a") ("")),
         ConcStep.loopCheck 0 0 (some ("W1")),
         ConcStep.loopCheck 0 0 none,
         ConcStep.enq (mkMsg ("msg_b") ("")),
         ConcStep.exitStep]).map
        (fun s => (s.queue.messages.map (fun m => m.id), s.queue.isProcessing, s.worker))
      = some ([("msg_b")], false, WorkerPhase.notRunning) := by
  decide
